import Mathlib

/-!
Verification of the sebooth compositing engine against its specification.

The definitions below are a shallow embedding of the compositing-relevant
code of the repository:

* the video filter-graph builder inside the `system:save-session-locally`
  handler (`src/main/ipc/system.ipc.ts`): rotated-bounding-box math,
  placement offsets, `Math.round` pixel snapping, and the overlay-chaining
  loop that emits the ffmpeg filter graph;
* the raster compositor `generateCompositeFromPhotos` and the upload-time
  duplicate-slot resolution in `src/renderer/pages/PostProcessing.tsx`;
* the zustand session store (`useSessionStore`) operations
  `addPhoto` / `updatePhoto` / `removePhoto`.

JavaScript floating-point numbers are modelled as real numbers; `Math.round`
is modelled exactly (round half towards positive infinity); JS string
truthiness (`s ||  t` falling through on the empty string) is modelled
explicitly where the code relies on it.
-/

namespace Sebooth

/-! ## Geometry engine (video path, `system.ipc.ts`)

`const rotRad = rot * PI / 180` and
`wRot = w*abs(cos(rotRad)) + h*abs(sin(rotRad))`,
`hRot = w*abs(sin(rotRad)) + h*abs(cos(rotRad))` from the overlay loop;
the same expressions appear (as an ffmpeg expression string) in `rotFilter`.
-/

/-- Degrees to radians, as in `rot * PI / 180` in the builder. -/
noncomputable def radOfDeg (a : ℝ) : ℝ := a * Real.pi / 180

/-- `wRot = w * abs(cos(rotRad)) + h * abs(sin(rotRad))` from
`system.ipc.ts` (also the `ow` expression of `rotFilter`). -/
noncomputable def boundingWidth (w h a : ℝ) : ℝ :=
  w * |Real.cos (radOfDeg a)| + h * |Real.sin (radOfDeg a)|

/-- `hRot = w * abs(sin(rotRad)) + h * abs(cos(rotRad))` from
`system.ipc.ts` (also the `oh` expression of `rotFilter`). -/
noncomputable def boundingHeight (w h a : ℝ) : ℝ :=
  w * |Real.sin (radOfDeg a)| + h * |Real.cos (radOfDeg a)|

/-- Modelled from the spec: the known-incorrect alternative bounding-box
formula `hypot(w*cos(rad), h*sin(rad))` that the spec forbids; it is not in
the repository code and is defined here only to be compared against
`boundingWidth`. -/
noncomputable def hypotBoundingWidth (w h a : ℝ) : ℝ :=
  Real.sqrt ((w * Real.cos (radOfDeg a)) ^ 2 + (h * Real.sin (radOfDeg a)) ^ 2)

/-! ## Raster cover fit (`generateCompositeFromPhotos`, PostProcessing.tsx)

```
const imgAspect = img.width / img.height
const slotAspect = slot.width / slot.height
if (imgAspect > slotAspect) { drawHeight = slot.height; drawWidth = slot.height * imgAspect }
else { drawWidth = slot.width; drawHeight = slot.width / imgAspect }
```
-/

/-- Cover-fit dimensions `(drawWidth, drawHeight)` computed by the raster
compositor for a source of native size `imgW×imgH` placed into a slot of
size `tW×tH`. -/
noncomputable def computeCoverDimensions (imgW imgH tW tH : ℝ) : ℝ × ℝ :=
  let imgAspect := imgW / imgH
  let slotAspect := tW / tH
  if imgAspect > slotAspect then (tH * imgAspect, tH)
  else (tW, tW / imgAspect)

/-- Modelled from the spec: the external video engine's
`scale=w:h:force_original_aspect_ratio=increase` stage (emitted as a string
by the builder in `system.ipc.ts`) scales the source, preserving its aspect
ratio, to the smallest size at least `tW×tH` — i.e. match the less
overflowing axis and let the other overflow. -/
noncomputable def scaleIncreaseDims (srcW srcH tW tH : ℝ) : ℝ × ℝ :=
  if srcW / srcH > tW / tH then (tH * (srcW / srcH), tH)
  else (tW, tW / (srcW / srcH))

/-- Modelled from the spec: the external video engine's `crop=w:h` stage
takes a `tW×tH` window out of its input, so each output dimension is the
target clamped by the available input. -/
noncomputable def cropDims (tW tH sW sH : ℝ) : ℝ × ℝ := (min sW tW, min sH tH)

/-- Dimensions produced by the builder's
`scale=w:h:force_original_aspect_ratio=increase,crop=w:h` stage pair. -/
noncomputable def videoScaledDims (srcW srcH tW tH : ℝ) : ℝ × ℝ :=
  let s := scaleIncreaseDims srcW srcH tW tH
  cropDims tW tH s.1 s.2

/-! ## Placement (overlay loop of `system.ipc.ts`)

```
const w = Math.round(input.slot.width); const h = Math.round(input.slot.height)
const wRot = w*abs(cos(rotRad)) + h*abs(sin(rotRad))
const hRot = w*abs(sin(rotRad)) + h*abs(cos(rotRad))
const offsetX = (wRot - w) / 2;  const offsetY = (hRot - h) / 2
const finalX = Math.round(input.slot.x - offsetX)
const finalY = Math.round(input.slot.y - offsetY)
```
-/

/-- A slot as consumed by the video builder:
`{ width, height, x, y, rotation }` (an absent rotation is read as `0` by
`input.slot.rotation || 0`, which coincides with rotation `0`). -/
structure VSlot where
  x : ℝ
  y : ℝ
  width : ℝ
  height : ℝ
  rotation : ℝ

/-- JS `Math.round`: round half towards positive infinity. -/
noncomputable def jsRound (x : ℝ) : ℤ := ⌊x + 1 / 2⌋

/-- The rounded slot width `const w = Math.round(input.slot.width)`. -/
noncomputable def roundedW (s : VSlot) : ℝ := ((jsRound s.width : ℤ) : ℝ)

/-- The rounded slot height `const h = Math.round(input.slot.height)`. -/
noncomputable def roundedH (s : VSlot) : ℝ := ((jsRound s.height : ℤ) : ℝ)

/-- `wRot` for a slot, computed on the rounded dimensions as in the code. -/
noncomputable def wRot (s : VSlot) : ℝ :=
  boundingWidth (roundedW s) (roundedH s) s.rotation

/-- `hRot` for a slot, computed on the rounded dimensions as in the code. -/
noncomputable def hRot (s : VSlot) : ℝ :=
  boundingHeight (roundedW s) (roundedH s) s.rotation

/-- `offsetX = (wRot - w) / 2`. -/
noncomputable def offsetX (s : VSlot) : ℝ := (wRot s - roundedW s) / 2

/-- `offsetY = (hRot - h) / 2`. -/
noncomputable def offsetY (s : VSlot) : ℝ := (hRot s - roundedH s) / 2

/-- `finalX = Math.round(input.slot.x - offsetX)`. -/
noncomputable def finalX (s : VSlot) : ℤ := jsRound (s.x - offsetX s)

/-- `finalY = Math.round(input.slot.y - offsetY)`. -/
noncomputable def finalY (s : VSlot) : ℤ := jsRound (s.y - offsetY s)

/-- X coordinate of the centroid of the placed post-rotation bounding box:
the overlay puts the `wRot`-wide box with its left edge at `finalX`. -/
noncomputable def placedCentroidX (s : VSlot) : ℝ := (finalX s : ℝ) + wRot s / 2

/-- Y coordinate of the centroid of the placed post-rotation bounding box. -/
noncomputable def placedCentroidY (s : VSlot) : ℝ := (finalY s : ℝ) + hRot s / 2

/-! ## Basic facts about the trigonometry at the claimed angles -/

theorem radOfDeg_zero : radOfDeg 0 = 0 := by
  simp [radOfDeg]

theorem radOfDeg_ninety : radOfDeg 90 = Real.pi / 2 := by
  unfold radOfDeg; ring

theorem radOfDeg_two_seventy : radOfDeg 270 = Real.pi + Real.pi / 2 := by
  unfold radOfDeg; ring

theorem radOfDeg_forty_five : radOfDeg 45 = Real.pi / 4 := by
  unfold radOfDeg; ring

/-- C2: the builder's rotated bounding box is the `abs(cos)+abs(sin)` form:
at angle 0 both dimensions are the unrotated input exactly, at 90 and 270
the dimensions swap exactly, and whenever the angle is not a multiple of
90 degrees (both sine and cosine nonzero) the hypot-based alternative is
strictly smaller than the builder's bounding width, so the builder's value
never coincides with the hypot formula there. -/
theorem rotatedBoundingBox_spec (w h : ℝ) (hw : 0 < w) (hh : 0 < h) :
    (boundingWidth w h 0 = w ∧ boundingHeight w h 0 = h) ∧
    (boundingWidth w h 90 = h ∧ boundingHeight w h 90 = w) ∧
    (boundingWidth w h 270 = h ∧ boundingHeight w h 270 = w) ∧
    ∀ a : ℝ, Real.cos (radOfDeg a) ≠ 0 → Real.sin (radOfDeg a) ≠ 0 →
      hypotBoundingWidth w h a < boundingWidth w h a := by
  refine ⟨⟨?_, ?_⟩, ⟨?_, ?_⟩, ⟨?_, ?_⟩, ?_⟩
  · simp [boundingWidth, radOfDeg_zero]
  · simp [boundingHeight, radOfDeg_zero]
  · simp [boundingWidth, radOfDeg_ninety, Real.cos_pi_div_two, Real.sin_pi_div_two]
  · simp [boundingHeight, radOfDeg_ninety, Real.cos_pi_div_two, Real.sin_pi_div_two]
  · simp [boundingWidth, radOfDeg_two_seventy, Real.cos_add, Real.sin_add]
  · simp [boundingHeight, radOfDeg_two_seventy, Real.cos_add, Real.sin_add]
  · intro a hc hs
    have hc' : 0 < |Real.cos (radOfDeg a)| := abs_pos.mpr hc
    have hs' : 0 < |Real.sin (radOfDeg a)| := abs_pos.mpr hs
    have hpos : 0 < boundingWidth w h a := by
      unfold boundingWidth
      have := mul_pos hw hc'
      have := mul_pos hh hs'
      linarith
    unfold hypotBoundingWidth
    rw [Real.sqrt_lt' hpos]
    unfold boundingWidth
    have e1 : (w * Real.cos (radOfDeg a)) ^ 2 = (w * |Real.cos (radOfDeg a)|) ^ 2 := by
      rw [mul_pow, mul_pow, sq_abs]
    have e2 : (h * Real.sin (radOfDeg a)) ^ 2 = (h * |Real.sin (radOfDeg a)|) ^ 2 := by
      rw [mul_pow, mul_pow, sq_abs]
    rw [e1, e2]
    nlinarith [mul_pos (mul_pos hw hh) (mul_pos hc' hs')]

/-- Witness for `rotatedBoundingBox_spec` at `w = 400`, `h = 300`. -/
theorem rotatedBoundingBox_spec_witness :
    0 < (400 : ℝ) ∧ 0 < (300 : ℝ) ∧
    ((boundingWidth 400 300 0 = 400 ∧ boundingHeight 400 300 0 = 300) ∧
     (boundingWidth 400 300 90 = 300 ∧ boundingHeight 400 300 90 = 400) ∧
     (boundingWidth 400 300 270 = 300 ∧ boundingHeight 400 300 270 = 400) ∧
     ∀ a : ℝ, Real.cos (radOfDeg a) ≠ 0 → Real.sin (radOfDeg a) ≠ 0 →
       hypotBoundingWidth 400 300 a < boundingWidth 400 300 a) :=
  ⟨by norm_num, by norm_num,
    rotatedBoundingBox_spec 400 300 (by norm_num) (by norm_num)⟩

/-- C3: for positive native and slot dimensions the raster cover fit never
returns a dimension below the slot's, so the scaled source always covers
the slot in both axes. -/
theorem computeCoverDimensions_covers (imgW imgH tW tH : ℝ)
    (h1 : 0 < imgW) (h2 : 0 < imgH) (h3 : 0 < tW) (h4 : 0 < tH) :
    tW ≤ (computeCoverDimensions imgW imgH tW tH).1 ∧
    tH ≤ (computeCoverDimensions imgW imgH tW tH).2 := by
  have hA : 0 < imgW / imgH := div_pos h1 h2
  unfold computeCoverDimensions
  by_cases hgt : imgW / imgH > tW / tH
  · rw [if_pos hgt]
    constructor
    · have hmul : tH * (tW / tH) < tH * (imgW / imgH) :=
        mul_lt_mul_of_pos_left hgt h4
      have heq : tH * (tW / tH) = tW := by field_simp
      simp only
      linarith
    · simp
  · rw [if_neg hgt]
    push_neg at hgt
    constructor
    · simp
    · simp only
      rw [le_div_iff₀ hA]
      have hmul : tH * (imgW / imgH) ≤ tH * (tW / tH) :=
        mul_le_mul_of_nonneg_left hgt (le_of_lt h4)
      have heq : tH * (tW / tH) = tW := by field_simp
      linarith

/-- Witness for `computeCoverDimensions_covers` with a 1920×1080 source in
a 400×300 slot. -/
theorem computeCoverDimensions_covers_witness :
    0 < (1920 : ℝ) ∧ 0 < (1080 : ℝ) ∧ 0 < (400 : ℝ) ∧ 0 < (300 : ℝ) ∧
    (400 ≤ (computeCoverDimensions 1920 1080 400 300).1 ∧
     300 ≤ (computeCoverDimensions 1920 1080 400 300).2) :=
  ⟨by norm_num, by norm_num, by norm_num, by norm_num,
    computeCoverDimensions_covers 1920 1080 400 300
      (by norm_num) (by norm_num) (by norm_num) (by norm_num)⟩

/-- C4: when the source aspect ratio equals the slot aspect ratio, the
raster cover fit and the video scale-to-cover-then-crop stage both produce
exactly the slot dimensions, so the two independent implementations agree
exactly at the boundary. -/
theorem cover_matches_video_at_boundary (srcW srcH tW tH : ℝ)
    (h1 : 0 < srcW) (h2 : 0 < srcH) (h3 : 0 < tW) (h4 : 0 < tH)
    (hb : srcW / srcH = tW / tH) :
    computeCoverDimensions srcW srcH tW tH = (tW, tH) ∧
    videoScaledDims srcW srcH tW tH = (tW, tH) := by
  have hngt : ¬ srcW / srcH > tW / tH := by rw [hb]; exact lt_irrefl _
  have hdiv : tW / (srcW / srcH) = tH := by
    rw [hb]
    field_simp
  constructor
  · unfold computeCoverDimensions
    rw [if_neg hngt, hdiv]
  · unfold videoScaledDims scaleIncreaseDims cropDims
    rw [if_neg hngt]
    simp only [hdiv, min_self]

/-- Witness for `cover_matches_video_at_boundary` with an 800×600 source in
a 400×300 slot (both aspect 4:3). -/
theorem cover_matches_video_at_boundary_witness :
    0 < (800 : ℝ) ∧ 0 < (600 : ℝ) ∧ 0 < (400 : ℝ) ∧ 0 < (300 : ℝ) ∧
    (800 : ℝ) / 600 = 400 / 300 ∧
    (computeCoverDimensions 800 600 400 300 = (400, 300) ∧
     videoScaledDims 800 600 400 300 = (400, 300)) :=
  ⟨by norm_num, by norm_num, by norm_num, by norm_num, by norm_num,
    cover_matches_video_at_boundary 800 600 400 300
      (by norm_num) (by norm_num) (by norm_num) (by norm_num) (by norm_num)⟩

/-! ## Placement and the centroid invariant (C1) -/

theorem jsRound_le (x : ℝ) : ((jsRound x : ℤ) : ℝ) ≤ x + 1 / 2 :=
  Int.floor_le _

theorem lt_jsRound (x : ℝ) : x - 1 / 2 < ((jsRound x : ℤ) : ℝ) := by
  unfold jsRound
  have h := Int.sub_one_lt_floor (x + 1 / 2)
  linarith

theorem jsRound_intCast (n : ℤ) : jsRound (n : ℝ) = n := by
  unfold jsRound
  rw [Int.floor_eq_iff]
  constructor
  · linarith
  · push_cast
    linarith

theorem jsRound_four_hundred : jsRound (400 : ℝ) = 400 := by
  have h := jsRound_intCast 400
  norm_num at h
  exact h

theorem jsRound_three_hundred : jsRound (300 : ℝ) = 300 := by
  have h := jsRound_intCast 300
  norm_num at h
  exact h

/-- C1 (amended): the un-rounded offset formula preserves the slot centroid
exactly on both axes for every rotation angle; the builder additionally
snaps the slot dimensions and the final position to whole pixels with
`Math.round`, after which the placed bounding-box centroid agrees with the
slot centroid only to within 3/4 of a pixel on each axis (1/2 from
position rounding plus 1/4 from dimension rounding), not to 1e-6. -/
theorem placement_centroid (s : VSlot) (hw : 0 < s.width) (hh : 0 < s.height) :
    (s.x - (boundingWidth s.width s.height s.rotation - s.width) / 2
        + boundingWidth s.width s.height s.rotation / 2 = s.x + s.width / 2 ∧
     s.y - (boundingHeight s.width s.height s.rotation - s.height) / 2
        + boundingHeight s.width s.height s.rotation / 2 = s.y + s.height / 2) ∧
    |placedCentroidX s - (s.x + s.width / 2)| ≤ 3 / 4 ∧
    |placedCentroidY s - (s.y + s.height / 2)| ≤ 3 / 4 := by
  refine ⟨⟨by ring, by ring⟩, ?_, ?_⟩
  · have h1 := jsRound_le (s.x - offsetX s)
    have h2 := lt_jsRound (s.x - offsetX s)
    have h3 := jsRound_le s.width
    have h4 := lt_jsRound s.width
    have hx : placedCentroidX s - (s.x + s.width / 2)
        = (((finalX s : ℤ) : ℝ) - (s.x - offsetX s)) + (roundedW s - s.width) / 2 := by
      unfold placedCentroidX offsetX
      ring
    have hf : ((finalX s : ℤ) : ℝ) = ((jsRound (s.x - offsetX s) : ℤ) : ℝ) := rfl
    have hr : roundedW s = ((jsRound s.width : ℤ) : ℝ) := rfl
    rw [hx, hf, hr]
    apply abs_le.mpr
    constructor
    · linarith
    · linarith
  · have h1 := jsRound_le (s.y - offsetY s)
    have h2 := lt_jsRound (s.y - offsetY s)
    have h3 := jsRound_le s.height
    have h4 := lt_jsRound s.height
    have hy : placedCentroidY s - (s.y + s.height / 2)
        = (((finalY s : ℤ) : ℝ) - (s.y - offsetY s)) + (roundedH s - s.height) / 2 := by
      unfold placedCentroidY offsetY
      ring
    have hf : ((finalY s : ℤ) : ℝ) = ((jsRound (s.y - offsetY s) : ℤ) : ℝ) := rfl
    have hr : roundedH s = ((jsRound s.height : ℤ) : ℝ) := rfl
    rw [hy, hf, hr]
    apply abs_le.mpr
    constructor
    · linarith
    · linarith

/-- Witness for `placement_centroid` at the spec's end-to-end slot
`{x:200, y:200, w:400, h:300, rotation:90}`. -/
theorem placement_centroid_witness :
    0 < (VSlot.mk 200 200 400 300 90).width ∧
    0 < (VSlot.mk 200 200 400 300 90).height ∧
    |placedCentroidX ⟨200, 200, 400, 300, 90⟩ - (200 + 400 / 2)| ≤ 3 / 4 :=
  ⟨show (0 : ℝ) < 400 by norm_num, show (0 : ℝ) < 300 by norm_num,
    (placement_centroid ⟨200, 200, 400, 300, 90⟩
      (show (0 : ℝ) < 400 by norm_num) (show (0 : ℝ) < 300 by norm_num)).2.1⟩

/-- The concrete slot refuting C1 as stated: a 400×300 slot at the origin
rotated by 45 degrees. -/
noncomputable def cexSlot : VSlot := ⟨0, 0, 400, 300, 45⟩

theorem roundedW_cexSlot : roundedW cexSlot = 400 := by
  show ((jsRound (400 : ℝ) : ℤ) : ℝ) = 400
  rw [jsRound_four_hundred]
  norm_num

theorem roundedH_cexSlot : roundedH cexSlot = 300 := by
  show ((jsRound (300 : ℝ) : ℤ) : ℝ) = 300
  rw [jsRound_three_hundred]
  norm_num

theorem wRot_cexSlot : wRot cexSlot = 350 * Real.sqrt 2 := by
  have hc : Real.cos (radOfDeg (45 : ℝ)) = Real.sqrt 2 / 2 := by
    rw [radOfDeg_forty_five]; exact Real.cos_pi_div_four
  have hs : Real.sin (radOfDeg (45 : ℝ)) = Real.sqrt 2 / 2 := by
    rw [radOfDeg_forty_five]; exact Real.sin_pi_div_four
  have habs : |Real.sqrt 2 / 2| = Real.sqrt 2 / 2 := abs_of_nonneg (by positivity)
  have hrot : cexSlot.rotation = 45 := rfl
  unfold wRot
  rw [roundedW_cexSlot, roundedH_cexSlot, hrot]
  unfold boundingWidth
  rw [hc, hs, habs]
  ring

/-- C1 fails on the code as stated: at the 45-degree 400×300 slot the
`Math.round` snapping of the final overlay position moves the x-centroid
of the placed bounding box about 0.487 pixels away from the slot centroid,
far beyond the claimed 1e-6 tolerance. -/
theorem placement_centroid_cex :
    ¬ |placedCentroidX cexSlot - (cexSlot.x + cexSlot.width / 2)| ≤ 1 / 1000000 := by
  have hlo : (1.4142 : ℝ) < Real.sqrt 2 :=
    (Real.lt_sqrt (by norm_num)).mpr (by norm_num)
  have hhi : Real.sqrt 2 < (1.41422 : ℝ) :=
    (Real.sqrt_lt' (by norm_num)).mpr (by norm_num)
  have hoff : offsetX cexSlot = (350 * Real.sqrt 2 - 400) / 2 := by
    unfold offsetX
    rw [wRot_cexSlot, roundedW_cexSlot]
  have hx0 : cexSlot.x = 0 := rfl
  have hw0 : cexSlot.width = 400 := rfl
  have hfx : finalX cexSlot = -47 := by
    unfold finalX
    rw [hx0, hoff]
    unfold jsRound
    rw [Int.floor_eq_iff]
    constructor
    · push_cast
      linarith
    · push_cast
      linarith
  have hpc : placedCentroidX cexSlot = (-47 : ℝ) + 350 * Real.sqrt 2 / 2 := by
    unfold placedCentroidX
    rw [hfx, wRot_cexSlot]
    norm_num
  intro habs
  rw [hpc, hx0, hw0] at habs
  have h2 := (abs_le.mp habs).2
  linarith

/-! ## The overlay filter graph (`system.ipc.ts`)

The builder emits, for `N` valid inputs, the per-source chains
`[i+1:v]format,scale,crop(,rotate)[v_i]` and then the overlay chain

```
let lastOverlayNode = '[0:v]'
validInputs.forEach((input, i) => {
  filterGraph += lastOverlayNode + '[v' i ']overlay=' finalX ':' finalY
                 + ':shortest=' (i === 0 ? 1 : 0) + '[bg' i '];'
  lastOverlayNode = '[bg' i ']' })
filterGraph += lastOverlayNode + '[' (N+1) ':v]overlay=0:0[out]'
```

modelled here as a list of overlay stages over named stream nodes.
-/

/-- Stream labels appearing in the emitted filter graph: `[0:v]` (base),
`[bg i]`, `[v i]`, `[k:v]` (raw input `k`), `[out]`. -/
inductive Node
  | base : Node
  | bg : ℕ → Node
  | vout : ℕ → Node
  | rawInput : ℕ → Node
  | out : Node
deriving DecidableEq

/-- One `overlay=x:y:shortest=b` stage: it reads the accumulating
composite `bgNode`, puts `layerNode` on top at `(ox, oy)`, and labels the
result `outNode`. -/
structure OverlayStage where
  bgNode : Node
  layerNode : Node
  ox : ℤ
  oy : ℤ
  shortest : Bool
  outNode : Node
deriving DecidableEq

/-- The overlay-chaining loop: the threaded `lastOverlayNode` starts at the
given node and each iteration emits one stage and rebinds it to `[bg i]`;
returns the emitted stages and the final value of `lastOverlayNode`. -/
noncomputable def overlayStagesAux : Node → ℕ → List VSlot → List OverlayStage × Node
  | last, _, [] => ([], last)
  | last, i, s :: rest =>
      let st : OverlayStage :=
        { bgNode := last, layerNode := Node.vout i, ox := finalX s, oy := finalY s,
          shortest := i == 0, outNode := Node.bg i }
      let r := overlayStagesAux (Node.bg i) (i + 1) rest
      (st :: r.1, r.2)

/-- The full overlay chain of `system:save-session-locally`: the per-source
loop starting from `[0:v]`, followed by the unconditional final frame
overlay `lastOverlayNode [N+1:v] overlay=0:0 [out]`. -/
noncomputable def buildGraph (slots : List VSlot) : List OverlayStage :=
  let r := overlayStagesAux Node.base 0 slots
  r.1 ++ [{ bgNode := r.2, layerNode := Node.rawInput (slots.length + 1),
            ox := 0, oy := 0, shortest := false, outNode := Node.out }]

theorem overlayStagesAux_length (slots : List VSlot) :
    ∀ (last : Node) (i : ℕ), (overlayStagesAux last i slots).1.length = slots.length := by
  induction slots with
  | nil => intro last i; rfl
  | cons s rest ih => intro last i; simp [overlayStagesAux, ih]

theorem overlayStagesAux_head (s : VSlot) (rest : List VSlot) (last : Node) (i : ℕ) :
    (overlayStagesAux last i (s :: rest)).1[0]? =
      some { bgNode := last, layerNode := Node.vout i, ox := finalX s, oy := finalY s,
             shortest := i == 0, outNode := Node.bg i } := by
  simp [overlayStagesAux]

theorem overlayStagesAux_chain (slots : List VSlot) :
    ∀ (last : Node) (i j : ℕ), j + 1 < slots.length →
      ((overlayStagesAux last i slots).1[j + 1]?).map OverlayStage.bgNode =
      ((overlayStagesAux last i slots).1[j]?).map OverlayStage.outNode := by
  induction slots with
  | nil => intro last i j h; simp at h
  | cons s rest ih =>
    intro last i j h
    cases j with
    | zero =>
      cases rest with
      | nil => simp at h
      | cons t rest2 => simp [overlayStagesAux]
    | succ k =>
      have h' : k + 1 < rest.length := by simpa using h
      simpa [overlayStagesAux] using ih (Node.bg i) (i + 1) k h'

theorem overlayStagesAux_shortest (slots : List VSlot) :
    ∀ (last : Node) (i j : ℕ), j < slots.length →
      ((overlayStagesAux last i slots).1[j]?).map OverlayStage.shortest =
        some (i + j == 0) := by
  induction slots with
  | nil => intro last i j h; simp at h
  | cons s rest ih =>
    intro last i j h
    cases j with
    | zero => simp [overlayStagesAux]
    | succ k =>
      have h' : k < rest.length := by simpa using h
      have e : i + 1 + k = i + (k + 1) := by omega
      have hk := ih (Node.bg i) (i + 1) k h'
      rw [e] at hk
      simpa [overlayStagesAux] using hk

theorem overlayStagesAux_out (slots : List VSlot) :
    ∀ (last : Node) (i j : ℕ), j < slots.length →
      ((overlayStagesAux last i slots).1[j]?).map OverlayStage.outNode =
        some (Node.bg (i + j)) := by
  induction slots with
  | nil => intro last i j h; simp at h
  | cons s rest ih =>
    intro last i j h
    cases j with
    | zero => simp [overlayStagesAux]
    | succ k =>
      have h' : k < rest.length := by simpa using h
      have e : i + 1 + k = i + (k + 1) := by omega
      have hk := ih (Node.bg i) (i + 1) k h'
      rw [e] at hk
      simpa [overlayStagesAux] using hk

theorem overlayStagesAux_snd (slots : List VSlot) :
    ∀ (last : Node) (i : ℕ), slots ≠ [] →
      (overlayStagesAux last i slots).2 = Node.bg (i + slots.length - 1) := by
  induction slots with
  | nil => intro last i h; exact absurd rfl h
  | cons s rest ih =>
    intro last i _
    cases rest with
    | nil => simp [overlayStagesAux]
    | cons t rest2 =>
      have hr := ih (Node.bg i) (i + 1) (by simp)
      have : (overlayStagesAux last i (s :: t :: rest2)).2 =
          (overlayStagesAux (Node.bg i) (i + 1) (t :: rest2)).2 := by
        simp [overlayStagesAux]
      rw [this, hr]
      congr 1
      simp
      omega

/-- C5: with at least one resolvable source, the emitted graph has one
overlay stage per source plus the final frame stage; the first overlay
reads the base canvas `[0:v]`; every stage reads exactly the previous
stage's output (strictly sequential chaining); only the very first overlay
carries `shortest=1` and every later stage carries `shortest=0`; and the
final stage unconditionally overlays raw input `N+1` (the frame image) at
position `(0,0)` on top of everything. -/
theorem buildGraph_overlay_chain (slots : List VSlot) (hne : slots ≠ []) :
    (buildGraph slots).length = slots.length + 1 ∧
    ((buildGraph slots)[0]?).map OverlayStage.bgNode = some Node.base ∧
    (∀ j, j + 1 < (buildGraph slots).length →
      ((buildGraph slots)[j + 1]?).map OverlayStage.bgNode =
      ((buildGraph slots)[j]?).map OverlayStage.outNode) ∧
    ((buildGraph slots)[0]?).map OverlayStage.shortest = some true ∧
    (∀ j, 0 < j → j < (buildGraph slots).length →
      ((buildGraph slots)[j]?).map OverlayStage.shortest = some false) ∧
    (buildGraph slots)[slots.length]? =
      some { bgNode := Node.bg (slots.length - 1),
             layerNode := Node.rawInput (slots.length + 1),
             ox := 0, oy := 0, shortest := false, outNode := Node.out } := by
  have hn : 0 < slots.length := List.length_pos.mpr hne
  have hlen : (overlayStagesAux Node.base 0 slots).1.length = slots.length :=
    overlayStagesAux_length slots Node.base 0
  have hglen : (buildGraph slots).length = slots.length + 1 := by
    unfold buildGraph
    simp [hlen]
  have hleft : ∀ j, j < slots.length →
      (buildGraph slots)[j]? = (overlayStagesAux Node.base 0 slots).1[j]? := by
    intro j hj
    unfold buildGraph
    exact List.getElem?_append_left (by rw [hlen]; exact hj)
  have hfin : (buildGraph slots)[slots.length]? =
      some { bgNode := (overlayStagesAux Node.base 0 slots).2,
             layerNode := Node.rawInput (slots.length + 1),
             ox := 0, oy := 0, shortest := false, outNode := Node.out } := by
    unfold buildGraph
    rw [List.getElem?_append_right (by rw [hlen])]
    simp [hlen]
  have hsnd : (overlayStagesAux Node.base 0 slots).2 = Node.bg (slots.length - 1) := by
    rw [overlayStagesAux_snd slots Node.base 0 hne]
    simp
  refine ⟨hglen, ?_, ?_, ?_, ?_, ?_⟩
  · obtain ⟨s, rest, rfl⟩ : ∃ s rest, slots = s :: rest := by
      cases slots with
      | nil => exact absurd rfl hne
      | cons s rest => exact ⟨s, rest, rfl⟩
    rw [hleft 0 (by simp), overlayStagesAux_head]
    rfl
  · intro j hj
    rw [hglen] at hj
    rcases Nat.lt_or_ge (j + 1) slots.length with hlt | hge
    · rw [hleft (j + 1) hlt, hleft j (by omega)]
      exact overlayStagesAux_chain slots Node.base 0 j hlt
    · have hj1 : j + 1 = slots.length := by omega
      have hjval : j = slots.length - 1 := by omega
      rw [hj1, hfin, hleft j (by omega),
        overlayStagesAux_out slots Node.base 0 j (by omega), hsnd, hjval]
      simp
  · obtain ⟨s, rest, rfl⟩ : ∃ s rest, slots = s :: rest := by
      cases slots with
      | nil => exact absurd rfl hne
      | cons s rest => exact ⟨s, rest, rfl⟩
    rw [hleft 0 (by simp), overlayStagesAux_head]
    rfl
  · intro j hj0 hj
    rw [hglen] at hj
    rcases Nat.lt_or_ge j slots.length with hlt | hge
    · rw [hleft j hlt, overlayStagesAux_shortest slots Node.base 0 j hlt]
      have : (0 + j == 0) = false := by
        simp
        omega
      rw [this]
    · have hj1 : j = slots.length := by omega
      rw [hj1, hfin]
      rfl
  · rw [hfin, hsnd]

/-- Witness for `buildGraph_overlay_chain` on a concrete two-slot list. -/
theorem buildGraph_overlay_chain_witness :
    ([⟨0, 0, 100, 100, 0⟩, ⟨10, 10, 50, 50, 30⟩] : List VSlot) ≠ [] ∧
    ((buildGraph [⟨0, 0, 100, 100, 0⟩, ⟨10, 10, 50, 50, 30⟩])[0]?).map
        OverlayStage.shortest = some true :=
  ⟨List.cons_ne_nil _ _,
    (buildGraph_overlay_chain [⟨0, 0, 100, 100, 0⟩, ⟨10, 10, 50, 50, 30⟩]
      (List.cons_ne_nil _ _)).2.2.2.1⟩

/-! ## Raster compositor and duplicate resolution (PostProcessing.tsx)

`PhotoSlot` (shared types) and `CapturedPhoto` (session store), plus the
resolution rule used by both the canvas compositor and the video-URL
builder: `const sourceSlotId = slot.duplicateOfSlotId || slot.id` followed
by `photos.find(p => p.slotId === sourceSlotId)`.
-/

/-- `PhotoSlot` from the shared types: id, geometry, and the optional
`duplicateOfSlotId` reference. -/
structure RSlot where
  id : String
  x : ℝ
  y : ℝ
  width : ℝ
  height : ℝ
  rotation : ℝ
  duplicateOfSlotId : Option String

/-- `CapturedPhoto` from the session store. -/
structure CapturedPhoto where
  slotId : String
  imagePath : String
  timestamp : ℕ
  videoPath : Option String
deriving DecidableEq

/-- `slot.duplicateOfSlotId || slot.id` with JS truthiness: an unset or
empty-string reference falls through to the slot's own id. -/
def sourceSlotId (s : RSlot) : String :=
  match s.duplicateOfSlotId with
  | some d => if d = "" then s.id else d
  | none => s.id

/-- `photos.find(p => p.slotId === sourceSlotId)`. -/
def resolvePhoto (photos : List CapturedPhoto) (s : RSlot) : Option CapturedPhoto :=
  photos.find? fun p => p.slotId == sourceSlotId s

/-- `uploadedVideoUrls[sourceSlotId] || ''` from the upload path: look the
resolved source slot id up in the uploaded-video dictionary `m`, falling
back to the empty string. -/
def videoUrlFor (m : String → Option String) (s : RSlot) : String :=
  (m (sourceSlotId s)).getD ""

/-- One drawn layer of the raster composite: a photo clipped into a slot,
or the final frame overlay. -/
inductive Layer
  | photo : CapturedPhoto → RSlot → Layer
  | frame : Layer

/-- The layer sequence produced by `generateCompositeFromPhotos`: an early
return (no composite, no error) when the photo list is empty, otherwise
one layer per slot whose photo resolves — unresolvable slots are skipped
by `if (!photo) continue` — topped by the frame overlay. -/
def generateComposite (slots : List RSlot) (photos : List CapturedPhoto) :
    Option (List Layer) :=
  if photos.length = 0 then none
  else some ((slots.filterMap fun s => (resolvePhoto photos s).map fun p => Layer.photo p s)
             ++ [Layer.frame])

/-- C6: a duplicate slot resolves to the referenced slot's captured media —
same photo and same uploaded companion video — while keeping its own
geometry; its own id is never consulted, so it needs no direct capture.
(The referenced id must be nonempty: ids are generated with `uuidv4` and
the JS `||` fallback treats an empty string as unset.) -/
theorem duplicate_resolves_to_source (A B : RSlot) (photos : List CapturedPhoto)
    (m : String → Option String)
    (hB : B.duplicateOfSlotId = some A.id) (hA : A.duplicateOfSlotId = none)
    (hid : A.id ≠ "") :
    sourceSlotId B = A.id ∧
    resolvePhoto photos B = resolvePhoto photos A ∧
    videoUrlFor m B = videoUrlFor m A := by
  have hsB : sourceSlotId B = A.id := by
    unfold sourceSlotId
    rw [hB]
    simp [hid]
  have hsA : sourceSlotId A = A.id := by
    unfold sourceSlotId
    rw [hA]
  refine ⟨hsB, ?_, ?_⟩
  · unfold resolvePhoto
    rw [hsB, hsA]
  · unfold videoUrlFor
    rw [hsB, hsA]

/-- Witness for `duplicate_resolves_to_source` on a concrete pair of slots
with different geometry and a captured photo with companion video. -/
theorem duplicate_resolves_to_source_witness :
    (RSlot.mk "slot-b" 100 100 200 150 45 (some "slot-a")).duplicateOfSlotId
        = some (RSlot.mk "slot-a" 0 0 400 300 0 none).id ∧
    (RSlot.mk "slot-a" 0 0 400 300 0 none).duplicateOfSlotId = none ∧
    (RSlot.mk "slot-a" 0 0 400 300 0 none).id ≠ "" ∧
    resolvePhoto [⟨"slot-a", "imgA", 0, some "vidA"⟩]
        ⟨"slot-b", 100, 100, 200, 150, 45, some "slot-a"⟩
      = resolvePhoto [⟨"slot-a", "imgA", 0, some "vidA"⟩]
        ⟨"slot-a", 0, 0, 400, 300, 0, none⟩ :=
  ⟨rfl, rfl, by decide,
    (duplicate_resolves_to_source ⟨"slot-a", 0, 0, 400, 300, 0, none⟩
      ⟨"slot-b", 100, 100, 200, 150, 45, some "slot-a"⟩
      [⟨"slot-a", "imgA", 0, some "vidA"⟩] (fun _ => none)
      rfl rfl (by decide)).2.1⟩

theorem length_filterMap_eq_length_filter {α β : Type} (l : List α) (f : α → Option β) :
    (l.filterMap f).length = (l.filter fun a => (f a).isSome).length := by
  induction l with
  | nil => rfl
  | cons a t ih =>
    cases h : f a <;> simp [List.filterMap_cons, List.filter_cons, h, ih]

/-- C7 fails on the code as stated: with one slot and one photo that does
not resolve to it, every slot lacks a resolvable asset, yet the composite
operation still succeeds (producing a frame-only composite) instead of
failing with a NoContent error — no such error exists in the code. -/
theorem composite_no_content_cex :
    (([⟨"s1", 0, 0, 100, 100, 0, none⟩] : List RSlot).all
        fun s => (resolvePhoto [⟨"zzz", "img", 0, none⟩] s).isNone) = true ∧
    (generateComposite [⟨"s1", 0, 0, 100, 100, 0, none⟩]
        [⟨"zzz", "img", 0, none⟩]).isSome = true := by
  exact ⟨rfl, rfl⟩

/-- C7 (amended): a slot with no resolvable asset is skipped silently and
the remaining slots are still composited — the composite always succeeds
when the photo list is nonempty, containing exactly one layer per
resolvable slot plus the frame overlay on top; when no slot resolves the
result is a frame-only composite, not a NoContent failure (and an empty
photo list short-circuits the generation with no output and no error). -/
theorem composite_skips_missing (slots : List RSlot) (photos : List CapturedPhoto)
    (hne : photos.length ≠ 0) :
    ∃ layers, generateComposite slots photos = some layers ∧
      layers.length = (slots.filter fun s => (resolvePhoto photos s).isSome).length + 1 ∧
      layers.getLast? = some Layer.frame := by
  refine ⟨(slots.filterMap fun s => (resolvePhoto photos s).map fun p => Layer.photo p s)
      ++ [Layer.frame], ?_, ?_, ?_⟩
  · unfold generateComposite
    rw [if_neg hne]
  · rw [List.length_append,
      length_filterMap_eq_length_filter slots fun s => (resolvePhoto photos s).map
        fun p => Layer.photo p s]
    simp
  · exact List.getLast?_concat _

/-- Witness for `composite_skips_missing`: two slots, one resolvable and
one dangling, with a nonempty photo list. -/
theorem composite_skips_missing_witness :
    ([(⟨"s1", "img", 0, none⟩ : CapturedPhoto)].length ≠ 0) ∧
    ∃ layers,
      generateComposite
          [⟨"s1", 0, 0, 100, 100, 0, none⟩, ⟨"s2", 10, 10, 50, 50, 0, none⟩]
          [⟨"s1", "img", 0, none⟩] = some layers ∧
      layers.length =
        (([⟨"s1", 0, 0, 100, 100, 0, none⟩, ⟨"s2", 10, 10, 50, 50, 0, none⟩] :
            List RSlot).filter
          fun s => (resolvePhoto [⟨"s1", "img", 0, none⟩] s).isSome).length + 1 ∧
      layers.getLast? = some Layer.frame :=
  ⟨by decide,
    composite_skips_missing
      [⟨"s1", 0, 0, 100, 100, 0, none⟩, ⟨"s2", 10, 10, 50, 50, 0, none⟩]
      [⟨"s1", "img", 0, none⟩] (by decide)⟩

/-- C8 fails on the code as stated: a slot with negative width and height
and a self-referencing duplicate id is passed straight through both build
paths — the graph builder still emits its stage and the raster compositor
still succeeds, resolving the self-reference to the slot's own capture; no
InvalidGeometry failure exists anywhere in the code. -/
theorem invalid_geometry_cex :
    (buildGraph [⟨0, 0, -5, -7, 0⟩]).length = 2 ∧
    (generateComposite [⟨"s", 0, 0, -5, -7, 0, some "s"⟩]
        [⟨"s", "img", 0, none⟩]).isSome = true ∧
    (generateComposite [⟨"s", 0, 0, -5, -7, 0, some "s"⟩]
        [⟨"s", "img", 0, none⟩]).map List.length = some 2 := by
  refine ⟨?_, rfl, rfl⟩
  unfold buildGraph
  simp [overlayStagesAux_length]

/-- C8 (amended): the code performs no geometry or duplicate-reference
validation at build time — both the filter-graph builder and the raster
compositor are total over arbitrary slot lists, including non-positive
dimensions and malformed duplicate references (a self-reference silently
resolves to the slot's own capture, a dangling reference is silently
skipped); there is no InvalidGeometry error path. -/
theorem build_total_no_validation (slots : List VSlot) (rslots : List RSlot)
    (photos : List CapturedPhoto) (hne : photos.length ≠ 0) :
    (buildGraph slots).length = slots.length + 1 ∧
    (generateComposite rslots photos).isSome = true := by
  constructor
  · unfold buildGraph
    simp [overlayStagesAux_length]
  · unfold generateComposite
    rw [if_neg hne]
    rfl

/-- Witness for `build_total_no_validation` at degenerate inputs: a
zero-size video slot and a raster slot pointing at a nonexistent slot. -/
theorem build_total_no_validation_witness :
    ([(⟨"p", "img", 0, none⟩ : CapturedPhoto)].length ≠ 0) ∧
    ((buildGraph [⟨0, 0, 0, 0, 15⟩]).length = 1 + 1 ∧
     (generateComposite [⟨"q", 0, 0, -1, 3, 0, some "ghost"⟩]
        [⟨"p", "img", 0, none⟩]).isSome = true) :=
  ⟨by decide,
    build_total_no_validation [⟨0, 0, 0, 0, 15⟩]
      [⟨"q", 0, 0, -1, 3, 0, some "ghost"⟩] [⟨"p", "img", 0, none⟩] (by decide)⟩

/-! ## Color filter handling in the raster compositor (C9)

`generateCompositeFromPhotos` sets `ctx.filter` from the selected entry of
`FILTERS` before the slot loop, draws each photo inside a
`ctx.save() ... ctx.restore()` pair (which saves and restores the filter
as part of the 2D context state), then sets `ctx.filter = 'none'` and
draws the frame overlay.
-/

/-- One entry of the `FILTERS` table: an id and a canvas filter string. -/
structure FilterDef where
  id : String
  filterStr : String

/-- The part of the 2D canvas context state relevant here: the active
filter and the save/restore stack it participates in. -/
structure Ctx where
  filter : String
  stack : List String

/-- `ctx.save()` (the filter is part of the saved state). -/
def ctxSave (c : Ctx) : Ctx := { c with stack := c.filter :: c.stack }

/-- `ctx.restore()` (restores the filter saved by the matching save; a
restore on an empty stack is a no-op). -/
def ctxRestore (c : Ctx) : Ctx :=
  match c.stack with
  | f :: rest => { filter := f, stack := rest }
  | [] => c

/-- `ctx.filter = f`. -/
def ctxSetFilter (c : Ctx) (f : String) : Ctx := { c with filter := f }

/-- The filter string installed before the photo loop:
`FILTERS.find(f => f.id === selectedFilter)`, then `filterStr` when found
and not the neutral entry, else `'none'`. -/
def selectedFilterStr (filters : List FilterDef) (selected : String) : String :=
  match filters.find? fun f => f.id == selected with
  | some d => if d.id ≠ "none" then d.filterStr else "none"
  | none => "none"

/-- A draw call recorded together with the context filter active at the
moment of drawing. -/
inductive DrawEvent
  | photo : String → String → DrawEvent
  | frame : String → DrawEvent

/-- The slot loop: for each slot whose photo resolves, `save`, draw the
photo under the current filter, `restore`; unresolvable slots are skipped.
Returns the final context and the recorded draw events in order. -/
def drawSlots (photos : List CapturedPhoto) : Ctx → List RSlot → Ctx × List DrawEvent
  | c, [] => (c, [])
  | c, s :: rest =>
      match resolvePhoto photos s with
      | none => drawSlots photos c rest
      | some _ =>
          let c1 := ctxSave c
          let ev := DrawEvent.photo s.id c1.filter
          let c2 := ctxRestore c1
          let r := drawSlots photos c2 rest
          (r.1, ev :: r.2)

/-- The full draw sequence of `generateCompositeFromPhotos`: install the
selected filter, draw the photo layers, reset the filter to `'none'`, draw
the frame overlay. -/
def generateEvents (filters : List FilterDef) (selected : String)
    (slots : List RSlot) (photos : List CapturedPhoto) : List DrawEvent :=
  let c0 : Ctx := { filter := "none", stack := [] }
  let c1 := ctxSetFilter c0 (selectedFilterStr filters selected)
  let r := drawSlots photos c1 slots
  let c2 := ctxSetFilter r.1 "none"
  r.2 ++ [DrawEvent.frame c2.filter]

theorem drawSlots_spec (photos : List CapturedPhoto) (slots : List RSlot) :
    ∀ c : Ctx, (drawSlots photos c slots).1 = c ∧
      ∀ e ∈ (drawSlots photos c slots).2, ∃ sid, e = DrawEvent.photo sid c.filter := by
  induction slots with
  | nil => intro c; exact ⟨rfl, by simp [drawSlots]⟩
  | cons s rest ih =>
    intro c
    have hrs : ctxRestore (ctxSave c) = c := rfl
    unfold drawSlots
    cases hres : resolvePhoto photos s with
    | none =>
      simp only [hres]
      exact ih c
    | some p =>
      simp only [hres, hrs]
      refine ⟨(ih c).1, ?_⟩
      intro e he
      rcases List.mem_cons.mp he with he1 | he2
      · exact ⟨s.id, he1⟩
      · exact (ih c).2 e he2

/-- C9: in every raster composite the frame overlay is drawn with the
context filter reset to `'none'`, while every photo layer is drawn with
the selected color filter active — the overlay is never color-filtered. -/
theorem overlay_never_filtered (filters : List FilterDef) (selected : String)
    (slots : List RSlot) (photos : List CapturedPhoto) :
    (∀ sid f, DrawEvent.photo sid f ∈ generateEvents filters selected slots photos →
      f = selectedFilterStr filters selected) ∧
    (generateEvents filters selected slots photos).getLast?
      = some (DrawEvent.frame "none") := by
  constructor
  · intro sid f hmem
    unfold generateEvents at hmem
    rcases List.mem_append.mp hmem with hin | hfin
    · have hspec := (drawSlots_spec photos slots
        (ctxSetFilter ⟨"none", []⟩ (selectedFilterStr filters selected))).2 _ hin
      obtain ⟨sid2, he⟩ := hspec
      rw [DrawEvent.photo.injEq] at he
      exact he.2
    · simp at hfin
  · unfold generateEvents
    exact List.getLast?_concat _

/-! ## Session store (`useSessionStore`, C10) -/

/-- `Partial<CapturedPhoto>`: the update record accepted by
`updatePhoto`; absent fields leave the photo's fields unchanged. -/
structure PhotoUpdate where
  slotId : Option String
  imagePath : Option String
  timestamp : Option ℕ
  videoPath : Option (Option String)
deriving DecidableEq

/-- The JS spread `{ ...p, ...updates }`. -/
def applyUpdate (p : CapturedPhoto) (u : PhotoUpdate) : CapturedPhoto :=
  { slotId := u.slotId.getD p.slotId
    imagePath := u.imagePath.getD p.imagePath
    timestamp := u.timestamp.getD p.timestamp
    videoPath := u.videoPath.getD p.videoPath }

/-- `addPhoto`: drop any existing photo for the slot, then append the new
one (`[...state.photos.filter(p => p.slotId !== slotId), newPhoto]`). -/
def addPhoto (photos : List CapturedPhoto) (sid img : String)
    (vid : Option String) (now : ℕ) : List CapturedPhoto :=
  (photos.filter fun p => p.slotId != sid) ++ [⟨sid, img, now, vid⟩]

/-- `updatePhoto`: merge the update into the photo with the given slot id. -/
def updatePhoto (photos : List CapturedPhoto) (sid : String) (u : PhotoUpdate) :
    List CapturedPhoto :=
  photos.map fun p => if p.slotId = sid then applyUpdate p u else p

/-- `removePhoto`: drop the photo with the given slot id. -/
def removePhoto (photos : List CapturedPhoto) (sid : String) : List CapturedPhoto :=
  photos.filter fun p => p.slotId != sid

/-- One session-store operation on the photos list. -/
inductive SessionOp
  | add : String → String → Option String → ℕ → SessionOp
  | update : String → PhotoUpdate → SessionOp
  | remove : String → SessionOp
deriving DecidableEq

def applyOp (photos : List CapturedPhoto) : SessionOp → List CapturedPhoto
  | .add sid img vid now => addPhoto photos sid img vid now
  | .update sid u => updatePhoto photos sid u
  | .remove sid => removePhoto photos sid

/-- Run a sequence of store operations from the initial empty photos list
(`photos: []` at session start). -/
def runOps (ops : List SessionOp) : List CapturedPhoto := ops.foldl applyOp []

/-- An operation that cannot rewrite a photo's `slotId`: any add or
remove, or an update whose record leaves `slotId` absent. -/
def slotIdPreserving : SessionOp → Bool
  | .update _ u => u.slotId.isNone
  | _ => true

theorem addPhoto_nodup (photos : List CapturedPhoto) (sid img : String)
    (vid : Option String) (now : ℕ)
    (h : (photos.map CapturedPhoto.slotId).Nodup) :
    ((addPhoto photos sid img vid now).map CapturedPhoto.slotId).Nodup := by
  unfold addPhoto
  rw [List.map_append, List.nodup_append]
  refine ⟨List.Nodup.sublist (List.Sublist.map _ (List.filter_sublist _)) h, by simp, ?_⟩
  intro x hx hx2
  simp at hx2
  subst hx2
  simp only [List.mem_map, List.mem_filter] at hx
  obtain ⟨p, ⟨_, hp2⟩, hp3⟩ := hx
  rw [hp3] at hp2
  simp at hp2

theorem updatePhoto_map_slotId (photos : List CapturedPhoto) (sid : String)
    (u : PhotoUpdate) (hu : u.slotId = none) :
    (updatePhoto photos sid u).map CapturedPhoto.slotId
      = photos.map CapturedPhoto.slotId := by
  unfold updatePhoto
  rw [List.map_map]
  apply List.map_congr_left
  intro p _
  by_cases hps : p.slotId = sid
  · simp [hps, applyUpdate, hu]
  · simp [hps]

theorem removePhoto_nodup (photos : List CapturedPhoto) (sid : String)
    (h : (photos.map CapturedPhoto.slotId).Nodup) :
    ((removePhoto photos sid).map CapturedPhoto.slotId).Nodup :=
  List.Nodup.sublist (List.Sublist.map _ (List.filter_sublist _)) h

theorem runOps_nodup (ops : List SessionOp)
    (h : ∀ op ∈ ops, slotIdPreserving op = true) :
    ((runOps ops).map CapturedPhoto.slotId).Nodup := by
  unfold runOps
  have main : ∀ (l : List SessionOp) (start : List CapturedPhoto),
      (∀ op ∈ l, slotIdPreserving op = true) →
      (start.map CapturedPhoto.slotId).Nodup →
      ((l.foldl applyOp start).map CapturedPhoto.slotId).Nodup := by
    intro l
    induction l with
    | nil => intro start _ hs; simpa using hs
    | cons op rest ih =>
      intro start hall hs
      rw [List.foldl_cons]
      apply ih _ fun o ho => hall o (by simp [ho])
      cases op with
      | add sid img vid now => exact addPhoto_nodup start sid img vid now hs
      | update sid u =>
        have hu : u.slotId = none := by
          simpa [slotIdPreserving, Option.isNone_iff_eq_none] using
            hall (SessionOp.update sid u) (List.mem_cons_self _ _)
        show ((updatePhoto start sid u).map CapturedPhoto.slotId).Nodup
        rw [updatePhoto_map_slotId start sid u hu]
        exact hs
      | remove sid => exact removePhoto_nodup start sid hs
  exact main ops [] h (by simp)

theorem addPhoto_replaces (photos : List CapturedPhoto) (sid img : String)
    (vid : Option String) (now : ℕ) :
    ((addPhoto photos sid img vid now).filter fun p => p.slotId == sid).length = 1 := by
  unfold addPhoto
  rw [List.filter_append]
  have h1 : ((photos.filter fun p => p.slotId != sid).filter
      fun p => p.slotId == sid) = [] := by
    rw [List.filter_filter]
    apply List.filter_eq_nil_iff.mpr
    intro p _
    by_cases hps : p.slotId = sid
    · simp [hps]
    · simp [hps]
  rw [h1]
  simp

/-- C10 fails on the code as stated: `updatePhoto` accepts a
`Partial<CapturedPhoto>` that may contain `slotId`, and the spread
`{ ...p, ...updates }` then rewrites the photo's slot id — updating photo
"a" to slot id "b" while a photo for "b" exists leaves two photos with
`slotId = "b"`. -/
theorem session_store_unique_slots_cex :
    ¬ ((runOps [SessionOp.add "a" "ia" none 0, SessionOp.add "b" "ib" none 1,
        SessionOp.update "a" ⟨some "b", none, none, none⟩]).map
        CapturedPhoto.slotId).Nodup := by
  decide

/-- C10 (amended): after any sequence of `addPhoto`, `updatePhoto` and
`removePhoto` operations in which no update rewrites a `slotId`, the
photos list holds at most one photo per slot id; and `addPhoto` on an
already-captured slot replaces the entry — afterwards exactly one photo
carries that slot id. -/
theorem session_store_unique_slots (ops : List SessionOp)
    (h : ∀ op ∈ ops, slotIdPreserving op = true) :
    ((runOps ops).map CapturedPhoto.slotId).Nodup ∧
    ∀ (photos : List CapturedPhoto) (sid img : String) (vid : Option String) (now : ℕ),
      ((addPhoto photos sid img vid now).filter fun p => p.slotId == sid).length = 1 :=
  ⟨runOps_nodup ops h, fun photos sid img vid now => addPhoto_replaces photos sid img vid now⟩

/-- Witness for `session_store_unique_slots` on a concrete operation
sequence that captures, annotates, removes and recaptures. -/
theorem session_store_unique_slots_witness :
    (∀ op ∈ [SessionOp.add "a" "ia" none 0,
        SessionOp.update "a" ⟨none, some "ia2", none, none⟩,
        SessionOp.remove "a", SessionOp.add "b" "ib" none 2,
        SessionOp.add "b" "ib2" none 3], slotIdPreserving op = true) ∧
    ((runOps [SessionOp.add "a" "ia" none 0,
        SessionOp.update "a" ⟨none, some "ia2", none, none⟩,
        SessionOp.remove "a", SessionOp.add "b" "ib" none 2,
        SessionOp.add "b" "ib2" none 3]).map CapturedPhoto.slotId).Nodup :=
  ⟨by decide,
    (session_store_unique_slots [SessionOp.add "a" "ia" none 0,
        SessionOp.update "a" ⟨none, some "ia2", none, none⟩,
        SessionOp.remove "a", SessionOp.add "b" "ib" none 2,
        SessionOp.add "b" "ib2" none 3] (by decide)).1⟩

end Sebooth
